import Mathlib

/-!
Verification of the `ResumeBuilder` class in `src/app.js`.

The program is a browser form-to-preview synchronizer.  We embed its state
and operations shallowly:

* DOM input elements and preview elements become two finite string-valued
  maps (`inputs`, `previews`) keyed by element id.  Every element named in
  the static `fieldMappings` table is assumed to exist on the host page
  (the spec treats the page as a fixed, pre-existing set of named slots);
  `getElementById` on any other id yields `none`, which the code guards.
* `localStorage` becomes two optional slots, one for the serialized form
  snapshot (`resumeFormData`) and one for the theme string (`resumeTheme`).
  `JSON.stringify`/`JSON.parse` round-tripping of a string map is modelled
  by storing the structured association list directly; a corrupt stored
  blob (on which `JSON.parse` throws) is the `StoredForm.corrupt`
  constructor, and the `try`/`catch` in `loadFromStorage` becomes the
  corresponding match arm.
* `console.error` becomes an append-only `log` list.

JavaScript string operations (`trim`, `split('\n')`, `startsWith`,
`join('')`, truthiness of a string) are re-implemented by structural
recursion on the character list of a `String`, so that every definition
reduces inside the kernel and concrete test cases can be settled by
`decide`.
-/

namespace App

/-- JS `value.trim()`: strip whitespace from both ends of a string. -/
def jsTrim (s : String) : String :=
  ⟨((s.data.dropWhile Char.isWhitespace).reverse.dropWhile Char.isWhitespace).reverse⟩

/-- Splitting a character list at every occurrence of `sep`
(the char-list core of JS `str.split(sep)` for a one-character separator).
`[]` splits to `[[]]`, matching JS where `"".split("\n")` is `[""]`. -/
def splitChars (sep : Char) : List Char → List (List Char)
  | [] => [[]]
  | c :: cs =>
    if c = sep then
      [] :: splitChars sep cs
    else
      match splitChars sep cs with
      | [] => [[c]]
      | seg :: segs => (c :: seg) :: segs

/-- JS `content.split(sep)` for a one-character separator. -/
def jsSplit (s : String) (sep : Char) : List String :=
  (splitChars sep s.data).map (fun cs => ⟨cs⟩)

/-- JS `line.startsWith(c)` for a one-character argument. -/
def jsStartsWith (s : String) (c : Char) : Bool :=
  match s.data with
  | [] => false
  | c0 :: _ => c0 == c

/-- JS `array.join('')` on an array of strings. -/
def jsJoin (parts : List String) : String :=
  ⟨(parts.map String.data).flatten⟩

/-- JS `line.length` (nonzero exactly when the string is nonempty, which is
the only way the program uses it). -/
def jsLength (s : String) : Nat :=
  s.data.length

/-- Lookup in a JS object literal used as a string-to-string record
(`this.fieldMappings[inputId]`, `this.defaultValues[previewId]`):
`none` models the JS value `undefined` for an absent key. -/
def assoc : List (String × String) → String → Option String
  | [], _ => none
  | (k, v) :: rest, key => if key = k then some v else assoc rest key

/-- The static input-to-preview field mapping (`this.fieldMappings`,
src/app.js lines 10-21). -/
def fieldMappings : List (String × String) :=
  [("input-name", "preview-name"),
   ("input-title", "preview-title"),
   ("input-phone", "preview-phone"),
   ("input-email", "preview-email"),
   ("input-location", "preview-location"),
   ("input-linkedin", "preview-linkedin"),
   ("input-summary", "preview-summary"),
   ("input-experience", "preview-experience"),
   ("input-education", "preview-education"),
   ("input-skills", "preview-skills")]

/-- The default placeholder values (`this.defaultValues`,
src/app.js lines 24-35). -/
def defaultValues : List (String × String) :=
  [("preview-name", "Your Name"),
   ("preview-title", "Professional Title"),
   ("preview-phone", "Phone"),
   ("preview-email", "Email"),
   ("preview-location", "Location"),
   ("preview-linkedin", "LinkedIn"),
   ("preview-summary", "Your professional summary will appear here..."),
   ("preview-experience", "Your work experience will appear here..."),
   ("preview-education", "Your education details will appear here..."),
   ("preview-skills", "Your skills will appear here...")]

/-- The placeholder of a mapped preview field.  Every preview id reachable
through `fieldMappings` has an entry in `defaultValues`, so the `""`
fallback is never hit on mapped fields. -/
def defaultOf (previewId : String) : String :=
  (assoc defaultValues previewId).getD ""

/-- The multi-line preview fields
(`['preview-experience', 'preview-education', 'preview-skills'].includes(previewId)`,
src/app.js line 111). -/
def isMultiline (previewId : String) : Bool :=
  previewId == "preview-experience" || previewId == "preview-education" ||
    previewId == "preview-skills"

/-- The bullet test of src/app.js line 137:
`line.startsWith('•') || line.startsWith('-')`. -/
def bulletStart (line : String) : Bool :=
  jsStartsWith line '•' || jsStartsWith line '-'

/-- `formatMultilineContent` (src/app.js lines 125-143).  The guard embeds
the source condition `!content || content === this.defaultValues['preview-' + content]`
literally: the lookup is keyed by `'preview-' + content` (the content
itself), and a JS `===` comparison of the string `content` against an
`undefined` lookup result is `false`, which is exactly
`assoc defaultValues ("preview-" ++ content) = some content`. -/
def formatMultilineContent (content : String) : String :=
  if content = "" ∨ assoc defaultValues ("preview-" ++ content) = some content then
    content
  else
    jsJoin ((((jsSplit content '\n').map jsTrim).filter
        (fun line => decide (0 < jsLength line))).map
      (fun line =>
        if bulletStart line then "<div class=\"bullet-point\">" ++ line ++ "</div>"
        else "<div>" ++ line ++ "</div>"))

/-- What is stored under the `resumeFormData` key: either structured data
that `JSON.parse` accepts (an association list of input ids to raw string
values), or a corrupt blob on which `JSON.parse` throws. -/
inductive StoredForm where
  | valid (data : List (String × String))
  | corrupt (raw : String)

/-- The observable state the engine works on: live input values, rendered
preview contents (`textContent`/`innerHTML` both modelled as the stored
string), the two `localStorage` slots, the in-memory theme, the theme
stylesheet `href`, whether the `theme-stylesheet` element exists (the guard
of src/app.js line 153), the two theme buttons' `active` classes, and the
console error log. -/
structure AppState where
  inputs : String → String
  previews : String → String
  storageForm : Option StoredForm
  storageTheme : Option String
  currentTheme : String
  stylesheetHref : String
  themeStylesheetExists : Bool
  btnModernActive : Bool
  btnClassicActive : Bool
  log : List String

/-- Writing one preview element's content. -/
def setPreview (s : AppState) (previewId content : String) : AppState :=
  { s with previews := fun id => if id = previewId then content else s.previews id }

/-- The display value of src/app.js line 106:
`value.trim() || this.defaultValues[previewId]` (JS `||` on strings picks
the right operand exactly when the left is empty). -/
def displayValueFor (previewId value : String) : String :=
  if jsTrim value = "" then defaultOf previewId else jsTrim value

/-- `updatePreview` (src/app.js lines 100-118).  An unmapped `inputId`
yields `previewId === undefined`, `getElementById(undefined)` is `null`,
and the `if (previewElement)` guard makes the call a no-op. -/
def updatePreview (s : AppState) (inputId value : String) : AppState :=
  match assoc fieldMappings inputId with
  | none => s
  | some previewId =>
    if previewId = "preview-summary" then
      setPreview s previewId (displayValueFor previewId value)
    else if isMultiline previewId then
      setPreview s previewId (formatMultilineContent (displayValueFor previewId value))
    else
      setPreview s previewId (displayValueFor previewId value)

/-- How a display value appears in the preview element: the three
multi-line fields go through `formatMultilineContent` (innerHTML branch),
`preview-summary` and all remaining fields are plain text. -/
def renderFor (previewId content : String) : String :=
  if isMultiline previewId then formatMultilineContent content else content

/-- The snapshot `saveToStorage` builds (src/app.js lines 182-189): the
current value of every mapped input, keyed by input id. -/
def snapshotOf (s : AppState) : List (String × String) :=
  fieldMappings.map (fun kv => (kv.1, s.inputs kv.1))

/-- `saveToStorage` (src/app.js lines 181-192). -/
def saveToStorage (s : AppState) : AppState :=
  { s with storageForm := some (StoredForm.valid (snapshotOf s)) }

/-- The message `console.error` receives in the catch arm of
`loadFromStorage` (src/app.js line 213). -/
def errMsg : String :=
  "Error loading saved data:"

/-- One iteration of the `Object.keys(formData).forEach` loop in
`loadFromStorage` (src/app.js lines 204-211): the guard
`if (inputElement && formData[inputId])` requires the input element to
exist (the page has exactly the mapped inputs) and the stored value to be
truthy, i.e. a non-empty string. -/
def loadField (s : AppState) (kv : String × String) : AppState :=
  if (assoc fieldMappings kv.1).isSome ∧ kv.2 ≠ "" then
    updatePreview
      { s with inputs := fun id => if id = kv.1 then kv.2 else s.inputs id }
      kv.1 kv.2
  else s

/-- `loadFromStorage` (src/app.js lines 197-216).  `localStorage.getItem`
returning `null` is the `none` arm; a corrupt blob makes `JSON.parse`
throw, and the `catch` logs and leaves everything else unchanged. -/
def loadFromStorage (s : AppState) : AppState :=
  match s.storageForm with
  | none => s
  | some (StoredForm.corrupt _) => { s with log := s.log ++ [errMsg] }
  | some (StoredForm.valid fd) => fd.foldl loadField s

/-- `clearAllData` (src/app.js lines 221-248).  `confirmed` is the result
of the blocking `confirm(...)` dialog.  The preview loop sets every mapped
preview element to its raw default value — the multi-line branch
(line 238) assigns `defaultValue` via `innerHTML` without calling
`formatMultilineContent`, the other branch (line 240) via `textContent`,
so both arms store the raw default string. -/
def clearAllData (s : AppState) (confirmed : Bool) : AppState :=
  if confirmed then
    let s1 : AppState :=
      { s with inputs := fun id =>
          if (assoc fieldMappings id).isSome then "" else s.inputs id }
    let s2 : AppState :=
      { s1 with previews := fun pid =>
          if fieldMappings.any (fun kv => kv.2 == pid) then defaultOf pid
          else s1.previews pid }
    { s2 with storageForm := none }
  else s

/-- `switchTheme` (src/app.js lines 149-168), for the theme names the UI
can produce (`modern`/`classic`): guarded on the stylesheet element
existing, it rewrites the stylesheet `href`, records the current theme,
removes `active` from both theme buttons and adds it to the chosen one,
and persists the choice under `resumeTheme`. -/
def switchTheme (s : AppState) (themeName : String) : AppState :=
  if s.themeStylesheetExists then
    { s with
      stylesheetHref := "theme-" ++ themeName ++ ".css",
      currentTheme := themeName,
      btnModernActive := themeName == "modern",
      btnClassicActive := themeName == "classic",
      storageTheme := some themeName }
  else s

/-- `initializeTheme` (src/app.js lines 173-176). -/
def initializeTheme (s : AppState) : AppState :=
  switchTheme s (s.storageTheme.getD "modern")

/-- A fresh start: all inputs empty, every preview showing its default
placeholder, nothing yet in the log, with the given persisted storage
contents carried over from the previous session. -/
def freshState (sf : Option StoredForm) (st : Option String) : AppState :=
  { inputs := fun _ => ""
    previews := fun pid => defaultOf pid
    storageForm := sf
    storageTheme := st
    currentTheme := "modern"
    stylesheetHref := "theme-modern.css"
    themeStylesheetExists := true
    btnModernActive := true
    btnClassicActive := false
    log := [] }

/-- A rendered block of a multi-line preview, as the spec describes the
output of `formatMultiline`: an ordered sequence of blocks, each either a
bullet block or a plain block. -/
inductive SpecBlock where
  | bullet (line : String)
  | plain (line : String)
deriving DecidableEq

/-- Modelled from the spec: the block sequence `formatMultiline` is
specified to produce for non-empty, non-default content — split on line
breaks, trim each line, discard lines that are empty after trimming, tag a
surviving line as a bullet block when it begins with a bullet marker and
as a plain block otherwise, order preserved. -/
def specBlocks (content : String) : List SpecBlock :=
  (((jsSplit content '\n').map jsTrim).filter
      (fun line => decide (0 < jsLength line))).map
    (fun line =>
      if bulletStart line then SpecBlock.bullet line else SpecBlock.plain line)

/-- The HTML text the program emits for one block
(src/app.js lines 137-140). -/
def renderBlock : SpecBlock → String
  | SpecBlock.bullet line => "<div class=\"bullet-point\">" ++ line ++ "</div>"
  | SpecBlock.plain line => "<div>" ++ line ++ "</div>"

/-- A concrete pre-state for exercising `loadFromStorage`: the live input
`input-name` currently holds `"x"`, and the persisted snapshot maps
`input-name` to the empty string. -/
def c3State : AppState :=
  { freshState (some (StoredForm.valid [("input-name", "")])) none with
    inputs := fun id => if id = "input-name" then "x" else "" }

end App

namespace App

theorem setPreview_previews (s : AppState) (p c pid : String) :
    (setPreview s p c).previews pid = if pid = p then c else s.previews pid := rfl

theorem updatePreview_unmapped (s : AppState) (inputId value : String)
    (h : assoc fieldMappings inputId = none) :
    updatePreview s inputId value = s := by
  simp only [updatePreview, h]

theorem updatePreview_eq (s : AppState) (inputId value previewId : String)
    (h : assoc fieldMappings inputId = some previewId) :
    updatePreview s inputId value =
      setPreview s previewId (renderFor previewId (displayValueFor previewId value)) := by
  simp only [updatePreview, h]
  by_cases h1 : previewId = "preview-summary"
  · subst h1
    have hm : isMultiline "preview-summary" = false := by decide
    simp [renderFor, hm]
  · rw [if_neg h1]
    by_cases h2 : isMultiline previewId = true
    · simp [h2, renderFor]
    · simp [h2, renderFor]

theorem updatePreview_inputs (s : AppState) (inputId value : String) :
    (updatePreview s inputId value).inputs = s.inputs := by
  cases h : assoc fieldMappings inputId with
  | none => rw [updatePreview_unmapped s inputId value h]
  | some previewId =>
    rw [updatePreview_eq s inputId value previewId h]
    rfl

theorem updatePreview_previews_ne (s : AppState) (inputId value pid : String)
    (h : assoc fieldMappings inputId ≠ some pid) :
    (updatePreview s inputId value).previews pid = s.previews pid := by
  cases hA : assoc fieldMappings inputId with
  | none => rw [updatePreview_unmapped s inputId value hA]
  | some p =>
    rw [updatePreview_eq s inputId value p hA, setPreview_previews]
    have hne : pid ≠ p := fun hh => h (hh ▸ hA)
    rw [if_neg hne]

theorem assoc_mem {l : List (String × String)} {key v : String}
    (h : assoc l key = some v) : (key, v) ∈ l := by
  induction l with
  | nil => simp [assoc] at h
  | cons kv rest ih =>
    obtain ⟨a, b⟩ := kv
    by_cases hk : key = a
    · subst hk
      have he : assoc ((key, b) :: rest) key = some b := by simp [assoc]
      rw [he] at h
      simp only [Option.some.injEq] at h
      subst h
      exact List.mem_cons_self _ _
    · have h2 : assoc rest key = some v := by
        simpa [assoc, hk] using h
      exact List.mem_cons_of_mem _ (ih h2)

theorem fieldMappings_snd_nodup : (fieldMappings.map Prod.snd).Nodup := by decide

theorem assoc_fieldMappings_inj {k k2 p : String}
    (h : assoc fieldMappings k = some p) (h2 : assoc fieldMappings k2 = some p) :
    k = k2 := by
  have e := List.inj_on_of_nodup_map fieldMappings_snd_nodup
    (assoc_mem h) (assoc_mem h2) rfl
  exact congrArg Prod.fst e

theorem defaultCheck_never (content : String) :
    assoc defaultValues ("preview-" ++ content) ≠ some content := by
  intro h
  have hm := assoc_mem h
  simp only [defaultValues, List.mem_cons, List.not_mem_nil, or_false,
    Prod.mk.injEq] at hm
  rcases hm with ⟨h1, h2⟩ | ⟨h1, h2⟩ | ⟨h1, h2⟩ | ⟨h1, h2⟩ | ⟨h1, h2⟩ |
    ⟨h1, h2⟩ | ⟨h1, h2⟩ | ⟨h1, h2⟩ | ⟨h1, h2⟩ | ⟨h1, h2⟩ <;>
    (subst h2; exact absurd h1 (by decide))

end App

namespace App

theorem loadField_inputs_self (s : AppState) (k v : String) :
    (loadField s (k, v)).inputs k =
      if (assoc fieldMappings k).isSome ∧ v ≠ "" then v else s.inputs k := by
  by_cases hc : (assoc fieldMappings k).isSome ∧ v ≠ ""
  · simp only [loadField, if_pos hc, updatePreview_inputs, if_pos hc]
    rw [if_pos trivial]
  · simp only [loadField, if_neg hc]

theorem loadField_inputs_ne (s : AppState) (kv : String × String) (k : String)
    (hk : k ≠ kv.1) : (loadField s kv).inputs k = s.inputs k := by
  by_cases hc : (assoc fieldMappings kv.1).isSome ∧ kv.2 ≠ ""
  · simp only [loadField, if_pos hc, updatePreview_inputs]
    simp [hk]
  · simp only [loadField, if_neg hc]

theorem foldl_loadField_inputs_skip (fd : List (String × String)) (s : AppState)
    (k : String) (hk : k ∉ fd.map Prod.fst) :
    (fd.foldl loadField s).inputs k = s.inputs k := by
  induction fd generalizing s with
  | nil => rfl
  | cons kv rest ih =>
    simp only [List.map_cons, List.mem_cons, not_or] at hk
    rw [List.foldl_cons, ih _ hk.2, loadField_inputs_ne s kv k hk.1]

theorem foldl_loadField_inputs_mem (k v : String) :
    ∀ (fd : List (String × String)) (s : AppState),
      (fd.map Prod.fst).Nodup → (k, v) ∈ fd →
      (fd.foldl loadField s).inputs k =
        if (assoc fieldMappings k).isSome ∧ v ≠ "" then v else s.inputs k := by
  intro fd
  induction fd with
  | nil => intro s _ hmem; cases hmem
  | cons kv rest ih =>
    intro s hnd hmem
    simp only [List.map_cons, List.nodup_cons] at hnd
    rcases List.mem_cons.mp hmem with heq | hmem2
    · have hkv : kv = (k, v) := heq.symm
      subst hkv
      rw [List.foldl_cons, foldl_loadField_inputs_skip rest _ k hnd.1,
        loadField_inputs_self]
    · have hk1 : k ≠ kv.1 := by
        intro hkk
        exact hnd.1 (hkk ▸ List.mem_map_of_mem Prod.fst hmem2)
      rw [List.foldl_cons, ih _ hnd.2 hmem2, loadField_inputs_ne s kv k hk1]

theorem loadField_previews_ne (s : AppState) (kv : String × String) (pid : String)
    (h : assoc fieldMappings kv.1 ≠ some pid) :
    (loadField s kv).previews pid = s.previews pid := by
  by_cases hc : (assoc fieldMappings kv.1).isSome ∧ kv.2 ≠ ""
  · simp only [loadField, if_pos hc]
    rw [updatePreview_previews_ne _ _ _ _ h]
  · simp only [loadField, if_neg hc]

theorem foldl_loadField_previews_skip (fd : List (String × String)) (s : AppState)
    (pid : String) (h : ∀ kv ∈ fd, assoc fieldMappings kv.1 ≠ some pid) :
    (fd.foldl loadField s).previews pid = s.previews pid := by
  induction fd generalizing s with
  | nil => rfl
  | cons kv rest ih =>
    rw [List.foldl_cons, ih _ (fun kv2 h2 => h kv2 (List.mem_cons_of_mem _ h2)),
      loadField_previews_ne s kv pid (h kv (List.mem_cons_self _ _))]

theorem loadField_previews_self (s : AppState) (k v p : String)
    (hp : assoc fieldMappings k = some p) (hv : v ≠ "") :
    (loadField s (k, v)).previews p = renderFor p (displayValueFor p v) := by
  have hc : (assoc fieldMappings k).isSome ∧ v ≠ "" := ⟨by rw [hp]; rfl, hv⟩
  simp only [loadField, if_pos hc]
  rw [updatePreview_eq _ _ _ _ hp, setPreview_previews, if_pos rfl]

theorem foldl_loadField_previews_mem (k v p : String)
    (hp : assoc fieldMappings k = some p) (hv : v ≠ "") :
    ∀ (fd : List (String × String)) (s : AppState),
      (fd.map Prod.fst).Nodup → (k, v) ∈ fd →
      (fd.foldl loadField s).previews p = renderFor p (displayValueFor p v) := by
  intro fd
  induction fd with
  | nil => intro s _ hmem; cases hmem
  | cons kv rest ih =>
    intro s hnd hmem
    simp only [List.map_cons, List.nodup_cons] at hnd
    rcases List.mem_cons.mp hmem with heq | hmem2
    · have hkv : kv = (k, v) := heq.symm
      subst hkv
      have hrest : ∀ kv2 ∈ rest, assoc fieldMappings kv2.1 ≠ some p := by
        intro kv2 h2 hA
        have hk2 : kv2.1 = k := assoc_fieldMappings_inj hA hp
        have hmm : kv2.1 ∈ rest.map Prod.fst := List.mem_map_of_mem Prod.fst h2
        rw [hk2] at hmm
        exact hnd.1 hmm
      rw [List.foldl_cons, foldl_loadField_previews_skip rest _ p hrest,
        loadField_previews_self s k v p hp hv]
    · rw [List.foldl_cons, ih _ hnd.2 hmem2]

theorem snapshotOf_keys (s : AppState) :
    (snapshotOf s).map Prod.fst = fieldMappings.map Prod.fst := by
  simp only [snapshotOf, List.map_map]
  rfl

theorem fieldMappings_fst_nodup : (fieldMappings.map Prod.fst).Nodup := by decide

end App

namespace App

/-- C1: after `onFieldChange(f, v)` (source: `updatePreview`), the preview
field mapped to `f` shows `trim(v)` when the trimmed value is non-empty and
that field's default placeholder otherwise — "shows x" meaning the preview
content is `x` itself for plain-text fields and the
`formatMultilineContent` rendering of `x` for the three multi-line fields,
exactly as the spec's behavior clause
(`displayValue = trim(rawValue) || defaultValues[previewId]`) prescribes. -/
theorem updatePreview_trim_or_default (s : AppState)
    (inputId value previewId : String)
    (h : assoc fieldMappings inputId = some previewId) :
    (jsTrim value ≠ "" →
      (updatePreview s inputId value).previews previewId =
        renderFor previewId (jsTrim value)) ∧
    (jsTrim value = "" →
      (updatePreview s inputId value).previews previewId =
        renderFor previewId (defaultOf previewId)) := by
  constructor <;> intro hv
  · rw [updatePreview_eq s inputId value previewId h, setPreview_previews,
      if_pos rfl]
    unfold displayValueFor
    rw [if_neg hv]
  · rw [updatePreview_eq s inputId value previewId h, setPreview_previews,
      if_pos rfl]
    unfold displayValueFor
    rw [if_pos hv]

/-- Witness for C1 at the name field with value `"  Ada "`. -/
theorem updatePreview_trim_or_default_witness :
    assoc fieldMappings "input-name" = some "preview-name" ∧
    jsTrim "  Ada " ≠ "" ∧
    (updatePreview (freshState none none) "input-name" "  Ada ").previews
        "preview-name" =
      renderFor "preview-name" (jsTrim "  Ada ") := by
  refine ⟨by decide, by decide, ?_⟩
  exact (updatePreview_trim_or_default (freshState none none) "input-name"
    "  Ada " "preview-name" (by decide)).1 (by decide)

/-- C2 is contradicted by the code: `formatMultilineContent` applied to a
multi-line field's default placeholder does not return it unchanged.  The
already-default guard of src/app.js line 126 looks `defaultValues` up under
the key `'preview-' + content` — keyed by the content itself instead of the
field identity — so it never matches, and the placeholder falls through to
the formatter and comes back wrapped in a plain block. -/
theorem formatMultilineContent_default_formatted :
    formatMultilineContent "Your work experience will appear here..." =
      "<div>Your work experience will appear here...</div>" ∧
    formatMultilineContent "Your work experience will appear here..." ≠
      "Your work experience will appear here..." := by
  constructor
  · decide
  · decide

/-- C3 as stated is false at a concrete input: with the live input
`input-name` holding `"x"` and a well-formed persisted snapshot mapping
`input-name` to `""`, `loadFromStorage` leaves the input at `"x"` instead
of writing the stored empty string — the guard
`if (inputElement && formData[inputId])` treats `""` as falsy and skips the
key. -/
theorem loadFromStorage_empty_skipped_cex :
    (loadFromStorage c3State).inputs "input-name" = "x" ∧ ("x" : String) ≠ "" := by
  constructor
  · decide
  · decide

/-- C3 (amended): `loadFromStorage`, given a well-formed persisted snapshot
(with no duplicate keys), writes the stored value into the live input and
re-derives the mapped preview for every present key that matches a known
input field and whose stored value is non-empty; keys whose stored value is
the empty string are skipped and leave the input unchanged. -/
theorem loadFromStorage_loads_nonempty (s : AppState)
    (fd : List (String × String)) (k v p : String)
    (hs : s.storageForm = some (StoredForm.valid fd))
    (hnd : (fd.map Prod.fst).Nodup) (hmem : (k, v) ∈ fd)
    (hp : assoc fieldMappings k = some p) :
    ((loadFromStorage s).inputs k = if v = "" then s.inputs k else v) ∧
    (v ≠ "" →
      (loadFromStorage s).previews p = renderFor p (displayValueFor p v)) := by
  have hL : loadFromStorage s = fd.foldl loadField s := by
    simp only [loadFromStorage, hs]
  rw [hL]
  constructor
  · rw [foldl_loadField_inputs_mem k v fd s hnd hmem]
    by_cases hv : v = ""
    · rw [if_pos hv, if_neg (by simp [hv])]
    · rw [if_neg hv, if_pos ⟨by rw [hp]; rfl, hv⟩]
  · intro hv
    exact foldl_loadField_previews_mem k v p hp hv fd s hnd hmem

/-- Witness for the amended C3 at a one-key snapshot holding `"Bob"`. -/
theorem loadFromStorage_loads_nonempty_witness :
    ((loadFromStorage (freshState
          (some (StoredForm.valid [("input-name", "Bob")])) none)).inputs
        "input-name" =
      if ("Bob" : String) = "" then
        (freshState (some (StoredForm.valid [("input-name", "Bob")])) none).inputs
          "input-name"
      else "Bob") ∧
    (("Bob" : String) ≠ "" →
      (loadFromStorage (freshState
          (some (StoredForm.valid [("input-name", "Bob")])) none)).previews
          "preview-name" =
        renderFor "preview-name" (displayValueFor "preview-name" "Bob")) :=
  loadFromStorage_loads_nonempty _ _ _ _ _ rfl (by decide) (by decide) (by decide)

/-- C4: for every non-empty content string (the already-default guard never
matches, so this covers every non-default string too),
`formatMultilineContent` emits exactly the join of the spec's block
sequence — split on line breaks, trim each line, discard lines empty after
trimming, one block per surviving line in the original order, a bullet
block exactly when the trimmed line begins with `•` or `-` — and, in
particular, the block sequence of `"- a\n\nb\n• c"` is bullet `"- a"`,
plain `"b"`, bullet `"• c"`. -/
theorem formatMultilineContent_blocks :
    (∀ content : String, content ≠ "" →
      formatMultilineContent content =
        jsJoin ((specBlocks content).map renderBlock)) ∧
    specBlocks "- a\n\nb\n• c" =
      [SpecBlock.bullet "- a", SpecBlock.plain "b", SpecBlock.bullet "• c"] := by
  constructor
  · intro content h1
    have hguard :
        ¬(content = "" ∨
          assoc defaultValues ("preview-" ++ content) = some content) :=
      not_or.mpr ⟨h1, defaultCheck_never content⟩
    unfold formatMultilineContent specBlocks
    rw [if_neg hguard, List.map_map]
    have hfun : (renderBlock ∘ fun line =>
        if bulletStart line then SpecBlock.bullet line else SpecBlock.plain line) =
        (fun line =>
          if bulletStart line then "<div class=\"bullet-point\">" ++ line ++ "</div>"
          else "<div>" ++ line ++ "</div>") := by
      funext line
      by_cases hb : bulletStart line = true
      · simp [Function.comp, hb, renderBlock]
      · simp [Function.comp, hb, renderBlock]
    rw [hfun]
  · decide

/-- Witness for C4 at the spec's four-line example. -/
theorem formatMultilineContent_blocks_witness :
    ("- a\n\nb\n• c" : String) ≠ "" ∧
    formatMultilineContent "- a\n\nb\n• c" =
      jsJoin ((specBlocks "- a\n\nb\n• c").map renderBlock) :=
  ⟨by decide, formatMultilineContent_blocks.1 "- a\n\nb\n• c" (by decide)⟩

end App

namespace App

/-- C5: round-trip — `saveToStorage` followed, after a fresh start (inputs
empty, previews at defaults), by `loadFromStorage` restores every mapped
input to the value it held at save time.  Inputs that were empty at save
time are skipped by the load guard, but a fresh start already holds the
empty string there, so the round-trip still restores every value. -/
theorem saveThenLoad_restores (s : AppState) (st : Option String)
    (k p : String) (hp : assoc fieldMappings k = some p) :
    (loadFromStorage (freshState (saveToStorage s).storageForm st)).inputs k =
      s.inputs k := by
  have hnd : ((snapshotOf s).map Prod.fst).Nodup := by
    rw [snapshotOf_keys]
    exact fieldMappings_fst_nodup
  have hmem : (k, s.inputs k) ∈ snapshotOf s :=
    List.mem_map.mpr ⟨(k, p), assoc_mem hp, rfl⟩
  have hL : loadFromStorage (freshState (saveToStorage s).storageForm st) =
      (snapshotOf s).foldl loadField
        (freshState (saveToStorage s).storageForm st) := rfl
  rw [hL, foldl_loadField_inputs_mem k (s.inputs k) (snapshotOf s) _ hnd hmem]
  by_cases hv : s.inputs k = ""
  · rw [if_neg (by simp [hv])]
    exact hv.symm
  · rw [if_pos ⟨by rw [hp]; rfl, hv⟩]

/-- Witness for C5: a state whose inputs all hold `"CV"` round-trips at the
title field. -/
theorem saveThenLoad_restores_witness :
    (loadFromStorage (freshState
        (saveToStorage { freshState none none with inputs := fun _ => "CV" }).storageForm
        none)).inputs "input-title" =
      ({ freshState none none with inputs := fun _ => "CV" } : AppState).inputs
        "input-title" :=
  saveThenLoad_restores { freshState none none with inputs := fun _ => "CV" }
    none "input-title" "preview-title" (by decide)

/-- C6: confirmed `clearAllData` resets every mapped input to the empty
string, sets every mapped preview to its raw default placeholder (the last
conjunct shows the raw default differs from its `formatMultilineContent`
image, so the multi-line defaults demonstrably do not pass through the
formatter), removes the persisted snapshot key entirely, and a subsequent
fresh-start `loadFromStorage` on the resulting storage finds no snapshot
and is a no-op. -/
theorem clearAll_confirmed (s : AppState) :
    (∀ k p, assoc fieldMappings k = some p →
      (clearAllData s true).inputs k = "" ∧
      (clearAllData s true).previews p = defaultOf p) ∧
    (clearAllData s true).storageForm = none ∧
    (∀ st, loadFromStorage (freshState (clearAllData s true).storageForm st) =
      freshState (clearAllData s true).storageForm st) ∧
    defaultOf "preview-experience" ≠
      formatMultilineContent (defaultOf "preview-experience") := by
  refine ⟨?_, rfl, fun st => rfl, by decide⟩
  intro k p hp
  constructor
  · show (if (assoc fieldMappings k).isSome = true then "" else s.inputs k) = ""
    rw [if_pos (by rw [hp]; rfl)]
  · have hany : fieldMappings.any (fun kv => kv.2 == p) = true :=
      List.any_eq_true.mpr ⟨(k, p), assoc_mem hp, by simp⟩
    show (if fieldMappings.any (fun kv => kv.2 == p) = true then defaultOf p
        else s.previews p) = defaultOf p
    rw [if_pos hany]

/-- Witness for C6 at the skills field on a fresh state. -/
theorem clearAll_confirmed_witness :
    (clearAllData (freshState none none) true).inputs "input-skills" = "" ∧
    (clearAllData (freshState none none) true).previews "preview-skills" =
      defaultOf "preview-skills" ∧
    loadFromStorage
        (freshState (clearAllData (freshState none none) true).storageForm none) =
      freshState (clearAllData (freshState none none) true).storageForm none := by
  obtain ⟨h1, _, h3, _⟩ := clearAll_confirmed (freshState none none)
  obtain ⟨ha, hb⟩ := h1 "input-skills" "preview-skills" (by decide)
  exact ⟨ha, hb, h3 none⟩

/-- C7: `clearAllData` with the confirmation declined changes no state at
all — the declined branch returns the state unchanged, so every input,
every preview, and the persisted snapshot are exactly as before. -/
theorem clearAll_declined (s : AppState) : clearAllData s false = s := rfl

/-- C8: when the persisted snapshot is malformed (`JSON.parse` throws), the
failure is caught and logged, and `loadFromStorage` completes as a no-op:
inputs, previews, and both storage slots are unchanged, and the error
message is appended to the console log.  The embedding is a total function,
so startup never propagates a failure from corrupt persisted state. -/
theorem loadFromStorage_corrupt_noop (s : AppState) (raw : String)
    (h : s.storageForm = some (StoredForm.corrupt raw)) :
    (loadFromStorage s).inputs = s.inputs ∧
    (loadFromStorage s).previews = s.previews ∧
    (loadFromStorage s).storageForm = s.storageForm ∧
    (loadFromStorage s).storageTheme = s.storageTheme ∧
    (loadFromStorage s).log = s.log ++ [errMsg] := by
  have hL : loadFromStorage s = { s with log := s.log ++ [errMsg] } := by
    simp only [loadFromStorage, h]
  rw [hL]
  exact ⟨rfl, rfl, rfl, rfl, rfl⟩

/-- Witness for C8 on a fresh state holding a corrupt blob. -/
theorem loadFromStorage_corrupt_noop_witness :
    (loadFromStorage (freshState (some (StoredForm.corrupt "not-json")) none)).inputs =
      (freshState (some (StoredForm.corrupt "not-json")) none).inputs ∧
    (loadFromStorage (freshState (some (StoredForm.corrupt "not-json")) none)).log =
      (freshState (some (StoredForm.corrupt "not-json")) none).log ++ [errMsg] := by
  obtain ⟨h1, _, _, _, h5⟩ := loadFromStorage_corrupt_noop
    (freshState (some (StoredForm.corrupt "not-json")) none) "not-json" rfl
  exact ⟨h1, h5⟩

/-- C9: after `switchTheme("classic")`, given the theme stylesheet element
exists (the selector buttons are part of the fixed host page in this
model), the persisted theme slot reads back `"classic"`, the current theme
is `"classic"`, the classic selector is marked active and the modern
selector is not; the operation is a total function with no error path
under this precondition. -/
theorem switchTheme_classic (s : AppState) (h : s.themeStylesheetExists = true) :
    (switchTheme s "classic").storageTheme = some "classic" ∧
    (switchTheme s "classic").currentTheme = "classic" ∧
    (switchTheme s "classic").btnClassicActive = true ∧
    (switchTheme s "classic").btnModernActive = false := by
  unfold switchTheme
  rw [h]
  exact ⟨rfl, rfl, rfl, rfl⟩

/-- Witness for C9 on a fresh state (whose stylesheet element exists). -/
theorem switchTheme_classic_witness :
    (freshState none none).themeStylesheetExists = true ∧
    (switchTheme (freshState none none) "classic").storageTheme = some "classic" ∧
    (switchTheme (freshState none none) "classic").btnModernActive = false := by
  obtain ⟨h1, _, _, h4⟩ := switchTheme_classic (freshState none none) rfl
  exact ⟨rfl, h1, h4⟩

/-- C10 (frame property): `updatePreview(f, v)` for a mapped input `f`
modifies at most the single preview mapped to `f`: every other preview's
content is unchanged, every input value is unchanged, and no write to
durable storage (neither the snapshot slot nor the theme slot) occurs
within `updatePreview` itself. -/
theorem updatePreview_frame (s : AppState) (inputId value previewId : String)
    (h : assoc fieldMappings inputId = some previewId) :
    (updatePreview s inputId value).inputs = s.inputs ∧
    (∀ pid, pid ≠ previewId →
      (updatePreview s inputId value).previews pid = s.previews pid) ∧
    (updatePreview s inputId value).storageForm = s.storageForm ∧
    (updatePreview s inputId value).storageTheme = s.storageTheme := by
  rw [updatePreview_eq s inputId value previewId h]
  exact ⟨rfl, fun pid hpid => by rw [setPreview_previews, if_neg hpid], rfl, rfl⟩

/-- Witness for C10: updating the phone field leaves the email preview,
the inputs, and the storage slots untouched. -/
theorem updatePreview_frame_witness :
    (updatePreview (freshState none none) "input-phone" "123").inputs =
      (freshState none none).inputs ∧
    (updatePreview (freshState none none) "input-phone" "123").previews
        "preview-email" =
      (freshState none none).previews "preview-email" ∧
    (updatePreview (freshState none none) "input-phone" "123").storageForm =
      (freshState none none).storageForm := by
  obtain ⟨h1, h2, h3, _⟩ := updatePreview_frame (freshState none none)
    "input-phone" "123" "preview-phone" (by decide)
  exact ⟨h1, h2 "preview-email" (by decide), h3⟩

end App
